import Mathlib

/-!
Verification of the `pgtest` package (kr/pgtest), which starts and stops a
postgres server for Go unit tests.  The repository contains two variants of
the package:

* `src/pgtest.go` (lines 1-123), called V1 below: the template data directory
  is `$TMPDIR/pgtestdata`, the configuration overrides are appended once to
  the template by `maybeInitdb`, and the connection URL and socket path are
  package-level constants shared by every instance (`host=/tmp`,
  `/tmp/.s.PGSQL.5432`).

* `src/unnamed/part_000`, called V2 below: the template is
  `$TMPDIR/pgtestdata1`, `pg_config --bindir` locates the binaries, a global
  `initdbOk` flag records whether initialization succeeded, a failed `initdb`
  removes the partially created template, and the configuration overrides
  (including the `unix_socket_directory` / `unix_socket_directories` choice
  made by the `contains` helper) are appended per instance to the instance's
  copy; the URL and socket path are derived from the instance directory.

The filesystem is modelled as an association list from paths (lists of
component names) to nodes (directories, or files with string contents).
External effects (subprocess exit statuses, permission failures, the engine
creating its socket) are supplied by explicit oracle records, and each Go
function is translated statement by statement into a state-passing function.
`t.Fatal` runs `runtime.Goexit`, so in Go no statement after a failed check
executes; this is modelled by returning an `Except.error` immediately.
-/

/-- A filesystem path, as its list of components ("/tmp/x" is ["tmp", "x"]). -/
abbrev FPath := List String

/-- A filesystem node: a directory, or a file with its contents. -/
inductive Node where
  | dir : Node
  | file : String → Node
deriving DecidableEq

/-- The filesystem: an association list from paths to nodes; the first
binding of a path shadows later ones. -/
abbrev FS := List (FPath × Node)

/-- `pathLe p q` holds when `p` is an ancestor of `q` or `q` itself. -/
def pathLe : FPath → FPath → Bool
  | [], _ => true
  | _, [] => false
  | a :: as, b :: bs => decide (a = b) && pathLe as bs

/-- Look a path up in the filesystem (first binding wins). -/
def FS.lookup (fs : FS) (p : FPath) : Option Node :=
  match fs with
  | [] => none
  | (q, n) :: rest => if q = p then some n else FS.lookup rest p

/-- `os.Stat` succeeding: the path exists in the filesystem. -/
def FS.hasFPath (fs : FS) (p : FPath) : Bool :=
  (FS.lookup fs p).isSome

/-- Create or overwrite a node at a path. -/
def FS.set (fs : FS) (p : FPath) (n : Node) : FS :=
  (p, n) :: fs

/-- `os.RemoveAll`: delete the path and everything below it.  Removing a
path that does not exist succeeds and changes nothing. -/
def FS.removeAll (fs : FS) (p : FPath) : FS :=
  fs.filter (fun e => !(pathLe p e.1))

/-- The new entries produced by `cp -a src/. dst`: every proper descendant
of `src` reappears under `dst`. -/
def FS.copyEntries (fs : FS) (src dst : FPath) : FS :=
  fs.filterMap (fun e =>
    if pathLe src e.1 = true ∧ e.1 ≠ src then
      some (dst ++ e.1.drop src.length, e.2)
    else none)

/-- `cp -a src/. dst`: add a copy of the subtree of `src` under `dst`. -/
def FS.copyTree (fs : FS) (src dst : FPath) : FS :=
  FS.copyEntries fs src dst ++ fs

theorem pathLe_refl (p : FPath) : pathLe p p = true := by
  induction p with
  | nil => rfl
  | cons a as ih => simp [pathLe, ih]

theorem pathLe_append (p q : FPath) : pathLe p (p ++ q) = true := by
  induction p with
  | nil => simp [pathLe]
  | cons a as ih => simp [pathLe, ih]

theorem FS.lookup_set_self (fs : FS) (p : FPath) (n : Node) :
    FS.lookup (FS.set fs p n) p = some n := by
  simp [FS.set, FS.lookup]

theorem FS.lookup_set_ne (fs : FS) (p q : FPath) (n : Node) (h : p ≠ q) :
    FS.lookup (FS.set fs p n) q = FS.lookup fs q := by
  simp [FS.set, FS.lookup, h]

theorem FS.lookup_removeAll_of_le (fs : FS) (p q : FPath) (h : pathLe p q = true) :
    FS.lookup (FS.removeAll fs p) q = none := by
  induction fs with
  | nil => rfl
  | cons e rest ih =>
    simp only [FS.removeAll, List.filter_cons] at ih ⊢
    by_cases he : pathLe p e.1 = true
    · simp [he, ih]
    · have hq : e.1 ≠ q := fun hc => he (hc ▸ h)
      simp only [Bool.not_eq_true] at he
      simp [he, FS.lookup, hq, ih]

theorem FS.hasFPath_removeAll_of_le (fs : FS) (p q : FPath) (h : pathLe p q = true) :
    FS.hasFPath (FS.removeAll fs p) q = false := by
  simp [FS.hasFPath, FS.lookup_removeAll_of_le fs p q h]

theorem FS.lookup_removeAll_of_not_le (fs : FS) (p q : FPath)
    (h : pathLe p q = false) :
    FS.lookup (FS.removeAll fs p) q = FS.lookup fs q := by
  induction fs with
  | nil => rfl
  | cons e rest ih =>
    simp only [FS.removeAll, List.filter_cons] at ih ⊢
    by_cases he : pathLe p e.1 = true
    · have hq : e.1 ≠ q := by
        intro hcontra
        rw [hcontra] at he
        rw [he] at h
        cases h
      simp [he, FS.lookup, hq, ih]
    · simp only [Bool.not_eq_true] at he
      by_cases hq : e.1 = q
      · have he2 : pathLe p q = false := hq ▸ he
        simp [he, he2, FS.lookup, hq]
      · simp [he, FS.lookup, hq, ih]

/-- A lookup outside the destination subtree is unchanged by `copyTree`. -/
theorem FS.lookup_copyTree_of_not_le (fs : FS) (src dst q : FPath)
    (h : pathLe dst q = false) :
    FS.lookup (FS.copyTree fs src dst) q = FS.lookup fs q := by
  have hmain : ∀ l : FS, FS.lookup (FS.copyEntries l src dst ++ fs) q = FS.lookup fs q := by
    intro l
    induction l with
    | nil => rfl
    | cons e rest ih =>
      simp only [FS.copyEntries, List.filterMap_cons] at ih ⊢
      by_cases hc : pathLe src e.1 = true ∧ e.1 ≠ src
      · have hne : dst ++ List.drop src.length e.1 ≠ q := by
          intro hcontra
          have hp := pathLe_append dst (List.drop src.length e.1)
          rw [hcontra] at hp
          rw [hp] at h
          cases h
        simp [hc, FS.lookup, hne, ih]
      · simp [hc, ih]
  simpa [FS.copyTree] using hmain fs

/-- The name `ioutil.TempDir("", "pgtest")` gives the n-th temporary
directory of the process.  `TempDir` guarantees a fresh name that collides
neither with earlier temporary directories nor with any fixed name; the
model realizes the guarantee with a counter-indexed suffix. -/
def tempName (n : Nat) : String :=
  "pgtest" ++ String.mk (List.replicate (n + 1) '0')

/-- FPath of the n-th temporary directory, under the system temp root. -/
def tempFPath (n : Nat) : FPath :=
  ["tmp", tempName n]

theorem tempName_inj (m n : Nat) (h : tempName m = tempName n) : m = n := by
  have hdata : ("pgtest".data ++ List.replicate (m + 1) '0')
      = ("pgtest".data ++ List.replicate (n + 1) '0') := by
    have := congrArg String.data h
    simpa [tempName, String.data_append] using this
  have hrep := List.append_cancel_left hdata
  have hlen := congrArg List.length hrep
  simpa using hlen

theorem tempName_ne_pgtestdata (n : Nat) : tempName n ≠ "pgtestdata" := by
  intro h
  have hdata : ("pgtest".data ++ List.replicate (n + 1) '0')
      = "pgtestdata".data := by
    have := congrArg String.data h
    simpa [tempName, String.data_append] using this
  have hsplit : "pgtestdata".data = "pgtest".data ++ 'd' :: "ata".data := by decide
  rw [hsplit] at hdata
  have hrep := List.append_cancel_left hdata
  rw [List.replicate_succ] at hrep
  injection hrep with h1 h2
  exact absurd h1 (by decide)

theorem tempName_ne_pgtestdata1 (n : Nat) : tempName n ≠ "pgtestdata1" := by
  intro h
  have hdata : ("pgtest".data ++ List.replicate (n + 1) '0')
      = "pgtestdata1".data := by
    have := congrArg String.data h
    simpa [tempName, String.data_append] using this
  have hsplit : "pgtestdata1".data = "pgtest".data ++ 'd' :: "ata1".data := by decide
  rw [hsplit] at hdata
  have hrep := List.append_cancel_left hdata
  rw [List.replicate_succ] at hrep
  injection hrep with h1 h2
  exact absurd h1 (by decide)

theorem tempFPath_inj (m n : Nat) (h : tempFPath m = tempFPath n) : m = n := by
  simp only [tempFPath, List.cons.injEq] at h
  exact tempName_inj m n h.2.1

/-! ## The readiness polling loop of `Start` (identical in both variants) -/

/-- Number of readiness checks: `for n := 0; n < 20; n++`. -/
def pollAttempts : Nat := 20

/-- The sleep after each failed check: `time.Sleep(50 * time.Millisecond)`. -/
def pollIntervalMs : Nat := 50

/-- The loop body of the readiness wait: at iteration `n` the socket is
checked (`obs n` is the outcome of `os.Stat`); on success the loop returns
`n`, otherwise it sleeps and continues while fuel remains. -/
def pollAux (obs : Nat → Bool) : Nat → Nat → Option Nat
  | _, 0 => none
  | n, fuel + 1 => if obs n then some n else pollAux obs (n + 1) fuel

/-- The readiness wait of `Start`: index of the first successful check among
`pollAttempts` many, or `none` (then `Start` fails with the timeout error). -/
def awaitReady (obs : Nat → Bool) : Option Nat :=
  pollAux obs 0 pollAttempts

/-- How many `os.Stat` checks the loop body performs. -/
def pollChecksAux (obs : Nat → Bool) : Nat → Nat → Nat
  | _, 0 => 0
  | n, fuel + 1 => if obs n then 1 else 1 + pollChecksAux obs (n + 1) fuel

/-- Number of checks performed by the readiness wait of `Start`. -/
def pollChecks (obs : Nat → Bool) : Nat :=
  pollChecksAux obs 0 pollAttempts

/-- How many 50ms sleeps the loop body performs (one after each failed check). -/
def pollSleepsAux (obs : Nat → Bool) : Nat → Nat → Nat
  | _, 0 => 0
  | n, fuel + 1 => if obs n then 0 else 1 + pollSleepsAux obs (n + 1) fuel

/-- Number of sleeps performed by the readiness wait of `Start`. -/
def pollSleeps (obs : Nat → Bool) : Nat :=
  pollSleepsAux obs 0 pollAttempts

/-- Socket observations supplied as a list; a check past the end fails. -/
def obsOf (l : List Bool) (n : Nat) : Bool :=
  l.getD n false

theorem pollAux_none (obs : Nat → Bool) (n fuel : Nat)
    (h : ∀ k, k < fuel → obs (n + k) = false) :
    pollAux obs n fuel = none := by
  induction fuel generalizing n with
  | zero => rfl
  | succ f ih =>
    have h0 : obs n = false := by simpa using h 0 (Nat.succ_pos f)
    have hrest : ∀ k, k < f → obs (n + 1 + k) = false := by
      intro k hk
      have := h (k + 1) (Nat.succ_lt_succ hk)
      simpa [Nat.add_assoc, Nat.add_comm 1 k] using this
    simp [pollAux, h0, ih (n + 1) hrest]

theorem pollChecksAux_all_false (obs : Nat → Bool) (n fuel : Nat)
    (h : ∀ k, k < fuel → obs (n + k) = false) :
    pollChecksAux obs n fuel = fuel := by
  induction fuel generalizing n with
  | zero => rfl
  | succ f ih =>
    have h0 : obs n = false := by simpa using h 0 (Nat.succ_pos f)
    have hrest : ∀ k, k < f → obs (n + 1 + k) = false := by
      intro k hk
      have := h (k + 1) (Nat.succ_lt_succ hk)
      simpa [Nat.add_assoc, Nat.add_comm 1 k] using this
    simp [pollChecksAux, h0, ih (n + 1) hrest, Nat.add_comm]

theorem pollSleepsAux_all_false (obs : Nat → Bool) (n fuel : Nat)
    (h : ∀ k, k < fuel → obs (n + k) = false) :
    pollSleepsAux obs n fuel = fuel := by
  induction fuel generalizing n with
  | zero => rfl
  | succ f ih =>
    have h0 : obs n = false := by simpa using h 0 (Nat.succ_pos f)
    have hrest : ∀ k, k < f → obs (n + 1 + k) = false := by
      intro k hk
      have := h (k + 1) (Nat.succ_lt_succ hk)
      simpa [Nat.add_assoc, Nat.add_comm 1 k] using this
    simp [pollSleepsAux, h0, ih (n + 1) hrest, Nat.add_comm]

theorem pollAux_first (obs : Nat → Bool) (n fuel i : Nat)
    (hi : i < fuel) (hobs : obs (n + i) = true)
    (hbefore : ∀ j, j < i → obs (n + j) = false) :
    pollAux obs n fuel = some (n + i) := by
  induction fuel generalizing n i with
  | zero => exact absurd hi (Nat.not_lt_zero i)
  | succ f ih =>
    cases i with
    | zero =>
      simp only [Nat.add_zero] at hobs
      simp [pollAux, hobs]
    | succ i0 =>
      have h0 : obs n = false := by simpa using hbefore 0 (Nat.succ_pos i0)
      have hobs2 : obs (n + 1 + i0) = true := by
        simpa [Nat.add_assoc, Nat.add_comm 1 i0] using hobs
      have hbefore2 : ∀ j, j < i0 → obs (n + 1 + j) = false := by
        intro j hj
        have := hbefore (j + 1) (Nat.succ_lt_succ hj)
        simpa [Nat.add_assoc, Nat.add_comm 1 j] using this
      have := ih (n + 1) i0 (Nat.lt_of_succ_lt_succ hi) hobs2 hbefore2
      simp only [pollAux, h0, Bool.false_eq_true, if_false]
      rw [this]
      congr 1
      omega

theorem pollChecksAux_first (obs : Nat → Bool) (n fuel i : Nat)
    (hi : i < fuel) (hobs : obs (n + i) = true)
    (hbefore : ∀ j, j < i → obs (n + j) = false) :
    pollChecksAux obs n fuel = i + 1 := by
  induction fuel generalizing n i with
  | zero => exact absurd hi (Nat.not_lt_zero i)
  | succ f ih =>
    cases i with
    | zero =>
      simp only [Nat.add_zero] at hobs
      simp [pollChecksAux, hobs]
    | succ i0 =>
      have h0 : obs n = false := by simpa using hbefore 0 (Nat.succ_pos i0)
      have hobs2 : obs (n + 1 + i0) = true := by
        simpa [Nat.add_assoc, Nat.add_comm 1 i0] using hobs
      have hbefore2 : ∀ j, j < i0 → obs (n + 1 + j) = false := by
        intro j hj
        have := hbefore (j + 1) (Nat.succ_lt_succ hj)
        simpa [Nat.add_assoc, Nat.add_comm 1 j] using this
      have := ih (n + 1) i0 (Nat.lt_of_succ_lt_succ hi) hobs2 hbefore2
      simp only [pollChecksAux, h0, Bool.false_eq_true, if_false]
      rw [this]
      omega

deriving instance DecidableEq for Except

/-! ## Errors raised through `t.Fatal` -/

/-- The failure sites of the package; each corresponds to one `t.Fatal`
call.  `t.Fatal` fails the test and stops the calling goroutine, so the
function returns this error and executes nothing further. -/
inductive Err where
  | mkdirErr | initdbErr | confOpenErr | confWriteErr | confCloseErr
  | pgConfigErr | priorInitdb | tempDirErr | copyErr | launchFailErr
  | timeoutErr | signalErr | removeErr
deriving DecidableEq

/-! ## V1: `src/pgtest.go` (lines 1-123) -/

/-- `var pgtestdata = filepath.Join(os.TempDir(), "pgtestdata")`. -/
def pgtestdataV1 : FPath := ["tmp", "pgtestdata"]

/-- The single-quote character, spelled by code point. -/
def quoteCh : String := String.mk [Char.ofNat 39]

/-- `s` wrapped in single quotes. -/
def quoted (s : String) : String := quoteCh ++ s ++ quoteCh

/-- The V1 `conf` constant appended to the template `postgresql.conf`. -/
def confV1 : String :=
  "\nfsync = off\nlisten_addresses = " ++ quoted "" ++
  "\nunix_socket_directory = " ++ quoted "/tmp" ++ "\n"

/-- The V1 `URL` package constant (shared by every instance). -/
def urlV1 : String := "host=/tmp dbname=postgres sslmode=disable"

/-- The V1 `sock` package constant `/tmp/.s.PGSQL.5432`. -/
def sockV1 : FPath := ["tmp", ".s.PGSQL.5432"]

/-- Outcomes of the external operations performed by V1 `maybeInitdb`:
a non-`IsExist` `os.Mkdir` failure, the `initdb` subprocess exit status and
the `postgresql.conf` contents it generates, and open/write/close outcomes
for the configuration append. -/
structure InitOracleV1 where
  mkdirOtherFail : Bool
  initdbExitOk : Bool
  initdbConf : String
  confOpenOk : Bool
  confWriteOk : Bool
  confCloseOk : Bool
deriving DecidableEq

/-- V1 `maybeInitdb`: `os.Mkdir(pgtestdata)` (IsExist means a previous run
already initialized the template, so return); run `initdb -D pgtestdata`
(modelled as creating `postgresql.conf` and a `base` subdirectory); then
open `postgresql.conf` with `O_APPEND|O_WRONLY`, append `conf`, and close.
Every failure goes through `t.Fatal`, aborting with no cleanup. -/
def maybeInitdbV1 (o : InitOracleV1) (fs : FS) : Except Err Unit × FS :=
  if FS.hasFPath fs pgtestdataV1 then (.ok (), fs)
  else if o.mkdirOtherFail then (.error .mkdirErr, fs)
  else
    let fs1 := FS.set fs pgtestdataV1 .dir
    if !o.initdbExitOk then (.error .initdbErr, fs1)
    else
      let fs2 := FS.set (FS.set fs1 (pgtestdataV1 ++ ["base"]) .dir)
                   (pgtestdataV1 ++ ["postgresql.conf"]) (.file o.initdbConf)
      match FS.lookup fs2 (pgtestdataV1 ++ ["postgresql.conf"]), o.confOpenOk with
      | some (.file c), true =>
        if !o.confWriteOk then (.error .confWriteErr, fs2)
        else
          let fs3 := FS.set fs2 (pgtestdataV1 ++ ["postgresql.conf"]) (.file (c ++ confV1))
          if !o.confCloseOk then (.error .confCloseErr, fs3)
          else (.ok (), fs3)
      | _, _ => (.error .confOpenErr, fs2)

/-- The V1 lifecycle handle `PG` as far as it is caller-visible: the owned
working directory (the `testing.T` and `exec.Cmd` fields carry no state the
claims touch beyond what the oracles model). -/
structure PGv1 where
  dir : FPath
deriving DecidableEq

/-- The endpoint a V1 instance exposes: the package constant `URL`. -/
def endpointV1 (_pg : PGv1) : String := urlV1

/-- Process-wide mutable state of V1: the filesystem, the temporary-name
counter, and the `sync.Once` guard (`onceRuns` counts executions of the
once body, for stating the at-most-once property). -/
structure WorldV1 where
  fs : FS
  tmpCounter : Nat
  onceDone : Bool
  onceRuns : Nat
deriving DecidableEq

/-- `once.Do(func() { maybeInitdb(t) })`: runs the body only if the guard
has not fired; the guard is set even when the body aborts through
`t.Fatal`, because `sync.Once` marks itself done in a deferred store. -/
def onceStepV1 (o : InitOracleV1) (w : WorldV1) : Except Err Unit × WorldV1 :=
  if w.onceDone then (.ok (), w)
  else
    let r := maybeInitdbV1 o w.fs
    (r.1, ⟨r.2, w.tmpCounter, true, w.onceRuns + 1⟩)

/-- Outcomes of the external operations in the per-instance part of V1
`Start`: `ioutil.TempDir`, the `cp -a` exit status, `cmd.Start`, and the
socket observations of the readiness poll. -/
structure StartOracleV1 where
  init : InitOracleV1
  tempDirOk : Bool
  cpExtOk : Bool
  launchOk : Bool
  sockObs : List Bool
deriving DecidableEq

/-- The per-instance part of V1 `Start` (everything after `once.Do`):
create a fresh temporary directory, `cp -a pgtestdata/. dir` (which fails
when the template is missing or the copy fails externally), start
`postgres -D dir`, and poll `/tmp/.s.PGSQL.5432` twenty times. -/
def instStepV1 (o : StartOracleV1) (w : WorldV1) : Except Err PGv1 × WorldV1 :=
  if !o.tempDirOk then (.error .tempDirErr, w)
  else
    let dir := tempFPath w.tmpCounter
    let w1 : WorldV1 := ⟨FS.set w.fs dir .dir, w.tmpCounter + 1, w.onceDone, w.onceRuns⟩
    if !(FS.hasFPath w1.fs pgtestdataV1 && o.cpExtOk) then (.error .copyErr, w1)
    else
      let w2 : WorldV1 := ⟨FS.copyTree w1.fs pgtestdataV1 dir, w1.tmpCounter, w1.onceDone, w1.onceRuns⟩
      if !o.launchOk then (.error .launchFailErr, w2)
      else
        match awaitReady (obsOf o.sockObs) with
        | some _ => (.ok ⟨dir⟩, w2)
        | none => (.error .timeoutErr, w2)

/-- V1 `Start`. -/
def startV1 (o : StartOracleV1) (w : WorldV1) : Except Err PGv1 × WorldV1 :=
  match onceStepV1 o.init w with
  | (.error e, w1) => (.error e, w1)
  | (.ok _, w1) => instStepV1 o w1

/-- A sequence of V1 `Start` calls in one process. -/
def runStartsV1 (w : WorldV1) : List StartOracleV1 → WorldV1 × List (Except Err PGv1)
  | [] => (w, [])
  | o :: os =>
    let r := startV1 o w
    let rest := runStartsV1 r.2 os
    (rest.1, r.1 :: rest.2)

/-! ## `Stop` (the method body is identical in both variants) -/

/-- Outcomes of the external operations in `Stop`: the result of
`pg.cmd.Process.Signal(os.Interrupt)` and an external (permission-style)
failure of `os.RemoveAll`, which is only possible when the directory still
exists — `os.RemoveAll` of a nonexistent path returns nil. -/
structure StopOracle where
  signalOk : Bool
  removeExtOk : Bool
deriving DecidableEq

/-- `(pg *PG) Stop()`: signal the process with `os.Interrupt`; a signal
error goes to `t.Fatal`, which stops the goroutine, so `os.RemoveAll` is
never reached in that case.  Otherwise remove the working directory
recursively.  The `Bool` component records whether the removal was
attempted. -/
def stopRun (o : StopOracle) (fs : FS) (dir : FPath) : Except Err Unit × FS × Bool :=
  if !o.signalOk then (.error .signalErr, fs, false)
  else if FS.hasFPath fs dir && !o.removeExtOk then (.error .removeErr, fs, true)
  else (.ok (), FS.removeAll fs dir, true)

/-! ## V2: `src/unnamed/part_000` -/

/-- `var pgtestdata = filepath.Join(os.TempDir(), "pgtestdata1")`. -/
def pgtestdataV2 : FPath := ["tmp", "pgtestdata1"]

/-- Whether the first list is an initial segment of the second. -/
def listPre : List Char → List Char → Bool
  | [], _ => true
  | _, [] => false
  | a :: as, b :: bs => decide (a = b) && listPre as bs

/-- `bytes.Contains`: whether `needle` occurs contiguously in the second list. -/
def listInf (needle : List Char) : List Char → Bool
  | [] => needle.isEmpty
  | b :: t => listPre needle (b :: t) || listInf needle t

/-- V2 `contains(substr, name)`: `ioutil.ReadFile` the named file and test
`bytes.Contains`; any read error (file missing, or unreadable, modelled by
`readOk = false`) makes the result `false`. -/
def contains (substr : String) (fs : FS) (readOk : Bool) (name : FPath) : Bool :=
  match FS.lookup fs name, readOk with
  | some (.file c), true => listInf substr.data c.data
  | _, _ => false

/-- The string form of a path, as the Go code renders it ("/tmp/pgtest0"). -/
def fpathStr (p : FPath) : String :=
  p.foldl (fun a c => a ++ "/" ++ c) ""

/-- The V2 `conf` template rendered with a `ConfDir` and the `Plural` flag
(`text/template` emits the literal text around the actions unchanged). -/
def renderConf (confDir : String) (plural : Bool) : String :=
  "\nfsync = off\nlisten_addresses = " ++ quoted "" ++ "\n\n" ++
  (if plural then "\nunix_socket_directories = " ++ quoted confDir ++ "\n"
   else "\nunix_socket_directory = " ++ quoted confDir ++ "\n") ++ "\n\n"

/-- Outcomes of the external operations performed by V2 `maybeInitdb`:
`pg_config --bindir` (exit status and output), a non-`IsExist` `os.Mkdir`
failure, and the `initdb` exit status together with the `postgresql.conf`
contents it generates. -/
structure InitOracleV2 where
  pgConfigOk : Bool
  bindir : String
  mkdirOtherFail : Bool
  initdbExitOk : Bool
  initdbConf : String
deriving DecidableEq

/-- Process-wide mutable state of V2: filesystem, temporary-name counter,
the `sync.Once` guard and its run count, and the package globals
`initdbOk` and `postgres`. -/
structure WorldV2 where
  fs : FS
  tmpCounter : Nat
  onceDone : Bool
  onceRuns : Nat
  initdbOk : Bool
  postgres : String
deriving DecidableEq

/-- V2 `maybeInitdb`: locate the binaries with `pg_config --bindir`;
`os.Mkdir(pgtestdata)` with IsExist meaning an already-initialized template
(set `initdbOk` and return); on an `initdb` failure remove the partially
created directory with `os.RemoveAll` before `t.Fatal`; on success set
`initdbOk = true`. -/
def maybeInitdbV2 (o : InitOracleV2) (w : WorldV2) : Except Err Unit × WorldV2 :=
  if !o.pgConfigOk then (.error .pgConfigErr, w)
  else
    let pgbin := o.bindir ++ "/postgres"
    if FS.hasFPath w.fs pgtestdataV2 then
      (.ok (), ⟨w.fs, w.tmpCounter, w.onceDone, w.onceRuns, true, pgbin⟩)
    else if o.mkdirOtherFail then
      (.error .mkdirErr, ⟨w.fs, w.tmpCounter, w.onceDone, w.onceRuns, w.initdbOk, pgbin⟩)
    else
      let fs1 := FS.set w.fs pgtestdataV2 .dir
      if !o.initdbExitOk then
        (.error .initdbErr,
          ⟨FS.removeAll fs1 pgtestdataV2, w.tmpCounter, w.onceDone, w.onceRuns, w.initdbOk, pgbin⟩)
      else
        let fs2 := FS.set (FS.set fs1 (pgtestdataV2 ++ ["base"]) .dir)
                     (pgtestdataV2 ++ ["postgresql.conf"]) (.file o.initdbConf)
        (.ok (), ⟨fs2, w.tmpCounter, w.onceDone, w.onceRuns, true, pgbin⟩)

/-- `once.Do(func() { maybeInitdb(t) })` in V2; as in V1 the guard fires
exactly once even when the body aborts. -/
def onceStepV2 (o : InitOracleV2) (w : WorldV2) : Except Err Unit × WorldV2 :=
  if w.onceDone then (.ok (), w)
  else
    let r := maybeInitdbV2 o w
    (r.1, ⟨r.2.fs, r.2.tmpCounter, true, r.2.onceRuns + 1, r.2.initdbOk, r.2.postgres⟩)

/-- The V2 lifecycle handle: the exported connection `URL` and the owned
working directory. -/
structure PGv2 where
  URL : String
  dir : FPath
deriving DecidableEq

/-- The V2 per-instance socket artifact `filepath.Join(pg.dir, ".s.PGSQL.5432")`. -/
def sockV2 (dir : FPath) : FPath := dir ++ [".s.PGSQL.5432"]

/-- Outcomes of the external operations in the per-instance part of V2
`Start`: `ioutil.TempDir`, `cp -a`, the open/read/write/close results for
the instance `postgresql.conf`, `cmd.Start`, and the socket observations. -/
structure StartOracleV2 where
  init : InitOracleV2
  tempDirOk : Bool
  cpExtOk : Bool
  confOpenOk : Bool
  confReadOk : Bool
  confWriteOk : Bool
  confCloseOk : Bool
  launchOk : Bool
  sockObs : List Bool
deriving DecidableEq

/-- The per-instance part of V2 `Start`: fresh temporary directory,
`cp -a pgtestdata/. dir`, open the copied `postgresql.conf` with
`O_APPEND|O_WRONLY` (`t.Fatal` if it cannot be opened), decide
`plural := !contains("unix_socket_directory", path)`, append the rendered
`conf` template, close, build the per-instance URL, start `postgres`, and
poll the instance socket twenty times. -/
def instStepV2 (o : StartOracleV2) (w : WorldV2) : Except Err PGv2 × WorldV2 :=
  if !o.tempDirOk then (.error .tempDirErr, w)
  else
    let dir := tempFPath w.tmpCounter
    let w1 : WorldV2 :=
      ⟨FS.set w.fs dir .dir, w.tmpCounter + 1, w.onceDone, w.onceRuns, w.initdbOk, w.postgres⟩
    if !(FS.hasFPath w1.fs pgtestdataV2 && o.cpExtOk) then (.error .copyErr, w1)
    else
      let w2 : WorldV2 :=
        ⟨FS.copyTree w1.fs pgtestdataV2 dir, w1.tmpCounter, w1.onceDone, w1.onceRuns,
          w1.initdbOk, w1.postgres⟩
      let cpath := dir ++ ["postgresql.conf"]
      match FS.lookup w2.fs cpath, o.confOpenOk with
      | some (.file c), true =>
        let plural := !(contains "unix_socket_directory" w2.fs o.confReadOk cpath)
        if !o.confWriteOk then (.error .confWriteErr, w2)
        else
          let w3 : WorldV2 :=
            ⟨FS.set w2.fs cpath (.file (c ++ renderConf (fpathStr dir) plural)),
              w2.tmpCounter, w2.onceDone, w2.onceRuns, w2.initdbOk, w2.postgres⟩
          if !o.confCloseOk then (.error .confCloseErr, w3)
          else
            let url := "host=" ++ fpathStr dir ++ " dbname=postgres sslmode=disable"
            if !o.launchOk then (.error .launchFailErr, w3)
            else
              match awaitReady (obsOf o.sockObs) with
              | some _ => (.ok ⟨url, dir⟩, w3)
              | none => (.error .timeoutErr, w3)
      | _, _ => (.error .confOpenErr, w2)

/-- V2 `Start`: the once-guarded `maybeInitdb`, then the
`if !initdbOk { t.Fatal("prior initdb attempt failed") }` check, then the
per-instance part. -/
def startV2 (o : StartOracleV2) (w : WorldV2) : Except Err PGv2 × WorldV2 :=
  match onceStepV2 o.init w with
  | (.error e, w1) => (.error e, w1)
  | (.ok _, w1) =>
    if !w1.initdbOk then (.error .priorInitdb, w1)
    else instStepV2 o w1

/-- A sequence of V2 `Start` calls in one process. -/
def runStartsV2 (w : WorldV2) : List StartOracleV2 → WorldV2 × List (Except Err PGv2)
  | [] => (w, [])
  | o :: os =>
    let r := startV2 o w
    let rest := runStartsV2 r.2 os
    (rest.1, r.1 :: rest.2)

/-! ## Auxiliary lemmas about the model -/

theorem FS.hasFPath_set_self (fs : FS) (p : FPath) (n : Node) :
    FS.hasFPath (FS.set fs p n) p = true := by
  simp [FS.hasFPath, FS.lookup_set_self]

theorem FS.hasFPath_set_ne (fs : FS) (p q : FPath) (n : Node) (h : p ≠ q) :
    FS.hasFPath (FS.set fs p n) q = FS.hasFPath fs q := by
  simp [FS.hasFPath, FS.lookup_set_ne fs p q n h]

theorem tempFPath_ne_pgtestdataV1 (n : Nat) : tempFPath n ≠ pgtestdataV1 := by
  intro h
  simp only [tempFPath, pgtestdataV1, List.cons.injEq] at h
  exact tempName_ne_pgtestdata n h.2.1

theorem tempFPath_ne_pgtestdataV2 (n : Nat) : tempFPath n ≠ pgtestdataV2 := by
  intro h
  simp only [tempFPath, pgtestdataV2, List.cons.injEq] at h
  exact tempName_ne_pgtestdata1 n h.2.1

theorem pathLe_length_le (p : FPath) : ∀ q, pathLe p q = true → p.length ≤ q.length := by
  induction p with
  | nil => intro q _; simp
  | cons a as ih =>
    intro q h
    cases q with
    | nil => cases h
    | cons b bs =>
      simp only [pathLe, Bool.and_eq_true, decide_eq_true_eq] at h
      have := ih bs h.2
      simp only [List.length_cons]
      omega

theorem pathLe_eq_of_len_le (p : FPath) :
    ∀ q, pathLe p q = true → q.length ≤ p.length → p = q := by
  induction p with
  | nil =>
    intro q _ hl
    cases q with
    | nil => rfl
    | cons b bs => simp at hl
  | cons a as ih =>
    intro q h hl
    cases q with
    | nil => cases h
    | cons b bs =>
      simp only [pathLe, Bool.and_eq_true, decide_eq_true_eq] at h
      simp only [List.length_cons] at hl
      have := ih bs h.2 (by omega)
      rw [h.1, this]

/-- The copy created by `cp -a src/. dst` never binds `dst` itself: copied
keys are proper extensions of `dst`. -/
theorem FS.lookup_copyTree_dst (fs : FS) (src dst : FPath) :
    FS.lookup (FS.copyTree fs src dst) dst = FS.lookup fs dst := by
  have hmain : ∀ l : FS, FS.lookup (FS.copyEntries l src dst ++ fs) dst = FS.lookup fs dst := by
    intro l
    induction l with
    | nil => rfl
    | cons e rest ih =>
      simp only [FS.copyEntries, List.filterMap_cons] at ih ⊢
      by_cases hc : pathLe src e.1 = true ∧ e.1 ≠ src
      · have hlt : src.length < e.1.length := by
          have hle := pathLe_length_le src e.1 hc.1
          rcases Nat.lt_or_ge src.length e.1.length with h | h
          · exact h
          · exact absurd (pathLe_eq_of_len_le src e.1 hc.1 h) (fun he => hc.2 he.symm)
        have hne : dst ++ List.drop src.length e.1 ≠ dst := by
          intro hcontra
          have := congrArg List.length hcontra
          simp only [List.length_append, List.length_drop] at this
          omega
        simp [hc, FS.lookup, hne, ih]
      · simp [hc, ih]
  simpa [FS.copyTree] using hmain fs

theorem FS.hasFPath_copyTree_dst (fs : FS) (src dst : FPath) :
    FS.hasFPath (FS.copyTree fs src dst) dst = FS.hasFPath fs dst := by
  simp [FS.hasFPath, FS.lookup_copyTree_dst]

/-! ## Claim C1 -/

/-- C1 counterexample: with the process signal failing at this concrete
input, `Stop` surfaces the termination error but the recursive removal of
the working directory is NOT attempted (the attempted-flag is `false` and
the filesystem is unchanged), contradicting the claim that the removal is
still attempted. -/
theorem pgtest_C1_cex :
    (stopRun ⟨false, true⟩ [(["tmp"], Node.dir), (tempFPath 0, Node.dir)] (tempFPath 0)).1
        = Except.error Err.signalErr ∧
    (stopRun ⟨false, true⟩ [(["tmp"], Node.dir), (tempFPath 0, Node.dir)] (tempFPath 0)).2.2
        = false ∧
    FS.hasFPath
      (stopRun ⟨false, true⟩ [(["tmp"], Node.dir), (tempFPath 0, Node.dir)] (tempFPath 0)).2.1
      (tempFPath 0) = true := by
  decide

/-- C1 (amended): if signalling the owned process fails, `Stop` surfaces
the termination error — never a masked success — but it does NOT attempt
the removal of the working directory: `t.Fatal` stops the goroutine before
`os.RemoveAll` runs, leaving the filesystem untouched. -/
theorem pgtest_C1_thm (o : StopOracle) (fs : FS) (dir : FPath)
    (h : o.signalOk = false) :
    stopRun o fs dir = (Except.error Err.signalErr, fs, false) := by
  simp [stopRun, h]

theorem pgtest_C1_wit :
    (⟨false, true⟩ : StopOracle).signalOk = false ∧
    stopRun ⟨false, true⟩ [(["tmp"], Node.dir)] ["tmp", "x"]
      = (Except.error Err.signalErr, [(["tmp"], Node.dir)], false) :=
  ⟨rfl, pgtest_C1_thm ⟨false, true⟩ [(["tmp"], Node.dir)] ["tmp", "x"] rfl⟩

/-! ## Claim C7 -/

/-- After a `Stop` that reported no error, no path at or below the
instance directory remains. -/
theorem stopRun_ok_gone (o : StopOracle) (fs : FS) (dir : FPath)
    (h : (stopRun o fs dir).1 = Except.ok ()) :
    ∀ q, pathLe dir q = true → FS.hasFPath (stopRun o fs dir).2.1 q = false := by
  by_cases hs : o.signalOk = true
  · by_cases hr : (FS.hasFPath fs dir && !o.removeExtOk) = true
    · simp [stopRun, hs, hr] at h
    · intro q hq
      simpa [stopRun, hs, hr] using FS.hasFPath_removeAll_of_le fs dir q hq
  · simp only [Bool.not_eq_true] at hs
    simp [stopRun, hs] at h

/-- C7: whenever `Stop` returns without reporting an error, the instance's
working directory — and every path beneath it — no longer exists on the
filesystem. -/
theorem pgtest_C7_thm (o : StopOracle) (fs : FS) (dir : FPath)
    (h : (stopRun o fs dir).1 = Except.ok ()) :
    FS.hasFPath (stopRun o fs dir).2.1 dir = false ∧
    (∀ q, pathLe dir q = true → FS.hasFPath (stopRun o fs dir).2.1 q = false) :=
  ⟨stopRun_ok_gone o fs dir h dir (pathLe_refl dir), stopRun_ok_gone o fs dir h⟩

theorem pgtest_C7_wit :
    (stopRun ⟨true, true⟩
        [(["tmp"], Node.dir), (tempFPath 0, Node.dir), (tempFPath 0 ++ ["base"], Node.dir)]
        (tempFPath 0)).1 = Except.ok () ∧
    FS.hasFPath
      (stopRun ⟨true, true⟩
        [(["tmp"], Node.dir), (tempFPath 0, Node.dir), (tempFPath 0 ++ ["base"], Node.dir)]
        (tempFPath 0)).2.1 (tempFPath 0) = false :=
  ⟨by decide,
    (pgtest_C7_thm ⟨true, true⟩
      [(["tmp"], Node.dir), (tempFPath 0, Node.dir), (tempFPath 0 ++ ["base"], Node.dir)]
      (tempFPath 0) (by decide)).1⟩

/-! ## Claim C9 -/

/-- C9 counterexample: `Stop` called twice on the same instance at this
concrete input; the second call returns without reporting any error,
refuting the claim that a second `Stop` reports a caller error. -/
theorem pgtest_C9_cex :
    (stopRun ⟨true, true⟩
      (stopRun ⟨true, true⟩ [(["tmp"], Node.dir), (tempFPath 0, Node.dir)]
        (tempFPath 0)).2.1
      (tempFPath 0)).1 = Except.ok () := by
  decide

/-- C9 (amended): `Stop` keeps no stopped-flag, so nothing distinguishes a
second call.  After a successful `Stop`, a second call whose interrupt is
accepted by the kernel (signalling the not-yet-reaped child pid succeeds,
and `os.RemoveAll` of the now-missing directory returns nil) completes
without reporting any error: a double `Stop` is silently ignored, not
surfaced as a caller error. -/
theorem pgtest_C9_thm (o1 o2 : StopOracle) (fs : FS) (dir : FPath)
    (h1 : (stopRun o1 fs dir).1 = Except.ok ())
    (h2 : o2.signalOk = true) :
    (stopRun o2 (stopRun o1 fs dir).2.1 dir).1 = Except.ok () := by
  have hgone : FS.hasFPath (stopRun o1 fs dir).2.1 dir = false :=
    stopRun_ok_gone o1 fs dir h1 dir (pathLe_refl dir)
  generalize hfs : (stopRun o1 fs dir).2.1 = fs2 at hgone ⊢
  simp [stopRun, h2, hgone]

theorem pgtest_C9_wit :
    (stopRun ⟨true, true⟩ [(tempFPath 1, Node.dir)] (tempFPath 1)).1 = Except.ok () ∧
    (⟨true, false⟩ : StopOracle).signalOk = true ∧
    (stopRun ⟨true, false⟩
      (stopRun ⟨true, true⟩ [(tempFPath 1, Node.dir)] (tempFPath 1)).2.1
      (tempFPath 1)).1 = Except.ok () :=
  ⟨by decide, rfl,
    pgtest_C9_thm ⟨true, true⟩ ⟨true, false⟩ [(tempFPath 1, Node.dir)] (tempFPath 1)
      (by decide) rfl⟩

/-! ## Claim C3 -/

/-- C3 counterexample: at this concrete input the engine executable fails
to start (`cmd.Start` errors); `Start` reports the fatal launch error, but
the working directory created for the instance is still on the filesystem,
refuting the claim that no working directory remains after the failure. -/
theorem pgtest_C3_cex :
    (startV1 ⟨⟨false, true, "# initdb conf", true, true, true⟩, true, true, false, []⟩
        ⟨[(["tmp"], Node.dir)], 0, false, 0⟩).1 = Except.error Err.launchFailErr ∧
    FS.hasFPath
      (startV1 ⟨⟨false, true, "# initdb conf", true, true, true⟩, true, true, false, []⟩
        ⟨[(["tmp"], Node.dir)], 0, false, 0⟩).2.fs (tempFPath 0) = true := by
  decide

/-- C3 (amended): if the engine executable cannot be started, `Start`
reports the fatal launch error for the instance, but the working directory
created for the instance remains on the filesystem — `t.Fatal` aborts
before any cleanup, and no failure path of `Start` removes the directory,
so it is leaked. -/
theorem pgtest_C3_thm (o : StartOracleV1) (w : WorldV1)
    (hdone : w.onceDone = true)
    (htmp : o.tempDirOk = true) (hcp : o.cpExtOk = true)
    (hsrc : FS.hasFPath w.fs pgtestdataV1 = true)
    (hlaunch : o.launchOk = false) :
    (startV1 o w).1 = Except.error Err.launchFailErr ∧
    FS.hasFPath (startV1 o w).2.fs (tempFPath w.tmpCounter) = true := by
  have hne := tempFPath_ne_pgtestdataV1 w.tmpCounter
  have hsrc2 : FS.hasFPath (FS.set w.fs (tempFPath w.tmpCounter) Node.dir) pgtestdataV1
      = true := by
    rw [FS.hasFPath_set_ne _ _ _ _ hne]
    exact hsrc
  constructor
  · simp [startV1, onceStepV1, hdone, instStepV1, htmp, hsrc2, hcp, hlaunch]
  · simp [startV1, onceStepV1, hdone, instStepV1, htmp, hsrc2, hcp, hlaunch,
      FS.hasFPath_copyTree_dst, FS.hasFPath_set_self]

theorem pgtest_C3_wit :
    ((⟨[(pgtestdataV1, Node.dir), (["tmp"], Node.dir)], 5, true, 1⟩ : WorldV1).onceDone
        = true ∧
      FS.hasFPath ([(pgtestdataV1, Node.dir), (["tmp"], Node.dir)] : FS) pgtestdataV1
        = true) ∧
    (startV1 ⟨⟨false, true, "", true, true, true⟩, true, true, false, [true]⟩
        ⟨[(pgtestdataV1, Node.dir), (["tmp"], Node.dir)], 5, true, 1⟩).1
      = Except.error Err.launchFailErr ∧
    FS.hasFPath
      (startV1 ⟨⟨false, true, "", true, true, true⟩, true, true, false, [true]⟩
        ⟨[(pgtestdataV1, Node.dir), (["tmp"], Node.dir)], 5, true, 1⟩).2.fs
      (tempFPath 5) = true :=
  ⟨⟨rfl, by decide⟩,
    pgtest_C3_thm ⟨⟨false, true, "", true, true, true⟩, true, true, false, [true]⟩
      ⟨[(pgtestdataV1, Node.dir), (["tmp"], Node.dir)], 5, true, 1⟩
      rfl rfl rfl (by decide) rfl⟩

/-! ## Claim C5 -/

/-- C5 counterexample: in the `src/pgtest.go` variant, at this concrete
input `initdb` fails after the template directory was created; the fatal
provisioning error is reported, but the partially created template
directory is still on the filesystem, refuting the claim that it is
removed before the error is reported. -/
theorem pgtest_C5_cex :
    (maybeInitdbV1 ⟨false, false, "", true, true, true⟩ [(["tmp"], Node.dir)]).1
        = Except.error Err.initdbErr ∧
    FS.hasFPath (maybeInitdbV1 ⟨false, false, "", true, true, true⟩
        [(["tmp"], Node.dir)]).2 pgtestdataV1 = true := by
  decide

/-- C5 (amended): in the part_000 variant, when `initdb` fails after the
template directory was created, the partially created directory is removed
(`os.RemoveAll`) before the fatal error is reported; in the pgtest.go
variant there is no such cleanup — a failing `initdb`, and likewise a
failing configuration append, reports the fatal error but leaves the
partially created template directory in place. -/
theorem pgtest_C5_thm (o2 : InitOracleV2) (w : WorldV2) (o1 o1b : InitOracleV1) (fs : FS)
    (h2cfg : o2.pgConfigOk = true)
    (h2abs : FS.hasFPath w.fs pgtestdataV2 = false)
    (h2mk : o2.mkdirOtherFail = false)
    (h2idb : o2.initdbExitOk = false)
    (h1abs : FS.hasFPath fs pgtestdataV1 = false)
    (h1mk : o1.mkdirOtherFail = false)
    (h1idb : o1.initdbExitOk = false)
    (h1bmk : o1b.mkdirOtherFail = false)
    (h1bidb : o1b.initdbExitOk = true)
    (h1bopen : o1b.confOpenOk = true)
    (h1bw : o1b.confWriteOk = false) :
    ((maybeInitdbV2 o2 w).1 = Except.error Err.initdbErr ∧
      FS.hasFPath (maybeInitdbV2 o2 w).2.fs pgtestdataV2 = false) ∧
    ((maybeInitdbV1 o1 fs).1 = Except.error Err.initdbErr ∧
      FS.hasFPath (maybeInitdbV1 o1 fs).2 pgtestdataV1 = true) ∧
    ((maybeInitdbV1 o1b fs).1 = Except.error Err.confWriteErr ∧
      FS.hasFPath (maybeInitdbV1 o1b fs).2 pgtestdataV1 = true) := by
  refine ⟨⟨?_, ?_⟩, ⟨?_, ?_⟩, ⟨?_, ?_⟩⟩
  · simp [maybeInitdbV2, h2cfg, h2abs, h2mk, h2idb]
  · simp [maybeInitdbV2, h2cfg, h2abs, h2mk, h2idb,
      FS.hasFPath_removeAll_of_le _ _ _ (pathLe_refl pgtestdataV2)]
  · simp [maybeInitdbV1, h1abs, h1mk, h1idb]
  · simp [maybeInitdbV1, h1abs, h1mk, h1idb, FS.hasFPath_set_self]
  · simp [maybeInitdbV1, h1abs, h1bmk, h1bidb, h1bopen, h1bw,
      FS.lookup_set_self]
  · have hb : pgtestdataV1 ++ ["base"] ≠ pgtestdataV1 := by decide
    have hc : pgtestdataV1 ++ ["postgresql.conf"] ≠ pgtestdataV1 := by decide
    simp [maybeInitdbV1, h1abs, h1bmk, h1bidb, h1bopen, h1bw, FS.lookup_set_self,
      FS.hasFPath_set_ne _ _ _ _ hc, FS.hasFPath_set_ne _ _ _ _ hb,
      FS.hasFPath_set_self]

theorem pgtest_C5_wit :
    ((maybeInitdbV2 ⟨true, "/b", false, false, ""⟩ ⟨[(["tmp"], Node.dir)], 0, false, 0, false, ""⟩).1
        = Except.error Err.initdbErr ∧
      FS.hasFPath
        (maybeInitdbV2 ⟨true, "/b", false, false, ""⟩
          ⟨[(["tmp"], Node.dir)], 0, false, 0, false, ""⟩).2.fs pgtestdataV2 = false) ∧
    ((maybeInitdbV1 ⟨false, false, "c", true, true, true⟩ [(["tmp"], Node.dir)]).1
        = Except.error Err.initdbErr ∧
      FS.hasFPath (maybeInitdbV1 ⟨false, false, "c", true, true, true⟩
        [(["tmp"], Node.dir)]).2 pgtestdataV1 = true) ∧
    ((maybeInitdbV1 ⟨false, true, "c", true, false, true⟩ [(["tmp"], Node.dir)]).1
        = Except.error Err.confWriteErr ∧
      FS.hasFPath (maybeInitdbV1 ⟨false, true, "c", true, false, true⟩
        [(["tmp"], Node.dir)]).2 pgtestdataV1 = true) :=
  pgtest_C5_thm ⟨true, "/b", false, false, ""⟩ ⟨[(["tmp"], Node.dir)], 0, false, 0, false, ""⟩
    ⟨false, false, "c", true, true, true⟩ ⟨false, true, "c", true, false, true⟩
    [(["tmp"], Node.dir)]
    rfl (by decide) rfl rfl (by decide) rfl rfl rfl rfl rfl rfl

/-! ## Claim C6 -/

/-- C6: the readiness wait of `Start` performs exactly 20 checks and, when
the socket never appears, fails with the timeout error after the 20th
check — not before and not indefinitely — having slept 20 × 50ms = 1000ms;
when the socket is first observed at check `i`, the wait succeeds at
exactly that check (after `i + 1` checks), and accordingly `Start` (with
all earlier steps succeeding) returns the timeout error when the signal
never appears and returns the instance at the first observed signal. -/
theorem pgtest_C6_thm (obs : Nat → Bool) :
    ((∀ n, obs n = false) →
      awaitReady obs = none ∧ pollChecks obs = 20 ∧
      pollSleeps obs * pollIntervalMs = 1000) ∧
    (∀ i, i < 20 → obs i = true → (∀ j, j < i → obs j = false) →
      awaitReady obs = some i ∧ pollChecks obs = i + 1) ∧
    (∀ (o : StartOracleV1) (w : WorldV1), w.onceDone = true →
      o.tempDirOk = true → o.cpExtOk = true →
      FS.hasFPath w.fs pgtestdataV1 = true → o.launchOk = true →
      ((awaitReady (obsOf o.sockObs) = none →
          (startV1 o w).1 = Except.error Err.timeoutErr) ∧
        (∀ i, awaitReady (obsOf o.sockObs) = some i →
          (startV1 o w).1 = Except.ok ⟨tempFPath w.tmpCounter⟩))) := by
  refine ⟨?_, ?_, ?_⟩
  · intro h
    refine ⟨?_, ?_, ?_⟩
    · exact pollAux_none obs 0 pollAttempts (fun k _ => h (0 + k))
    · exact pollChecksAux_all_false obs 0 pollAttempts (fun k _ => h (0 + k))
    · rw [pollSleeps, pollSleepsAux_all_false obs 0 pollAttempts (fun k _ => h (0 + k))]
      rfl
  · intro i hi hobs hb
    constructor
    · simpa using pollAux_first obs 0 pollAttempts i hi (by simpa using hobs)
        (fun j hj => by simpa using hb j hj)
    · simpa using pollChecksAux_first obs 0 pollAttempts i hi (by simpa using hobs)
        (fun j hj => by simpa using hb j hj)
  · intro o w hdone htmp hcp hsrc hlaunch
    have hne := tempFPath_ne_pgtestdataV1 w.tmpCounter
    have hsrc2 : FS.hasFPath (FS.set w.fs (tempFPath w.tmpCounter) Node.dir) pgtestdataV1
        = true := by
      rw [FS.hasFPath_set_ne _ _ _ _ hne]
      exact hsrc
    constructor
    · intro hnone
      simp [startV1, onceStepV1, hdone, instStepV1, htmp, hsrc2, hcp, hlaunch, hnone]
    · intro i hsome
      simp [startV1, onceStepV1, hdone, instStepV1, htmp, hsrc2, hcp, hlaunch, hsome]

theorem pgtest_C6_wit :
    awaitReady (fun _ => false) = none ∧ pollChecks (fun _ => false) = 20 ∧
    pollSleeps (fun _ => false) * pollIntervalMs = 1000 :=
  (pgtest_C6_thm (fun _ => false)).1 (fun _ => rfl)

/-! ## Claim C10 -/

theorem pathLe_append_drop (p : FPath) :
    ∀ q, pathLe p q = true → p ++ List.drop p.length q = q := by
  induction p with
  | nil => intro q _; simp
  | cons a as ih =>
    intro q h
    cases q with
    | nil => cases h
    | cons b bs =>
      simp only [pathLe, Bool.and_eq_true, decide_eq_true_eq] at h
      simp only [List.length_cons, List.drop_succ_cons, List.cons_append, h.1,
        List.cons.injEq, true_and]
      exact ih bs h.2

/-- `FS.lookup` distributes over list append. -/
theorem FS.lookup_append (l1 l2 : FS) (q : FPath) :
    FS.lookup (l1 ++ l2) q
      = match FS.lookup l1 q with
        | some n => some n
        | none => FS.lookup l2 q := by
  induction l1 with
  | nil => rfl
  | cons e rest ih =>
    by_cases hq : e.1 = q
    · simp [FS.lookup, hq]
    · simp [FS.lookup, hq, ih]

/-- The copied subtree reproduces the source subtree: looking up
`dst ++ r` among the copied entries equals looking up `src ++ r` in the
source filesystem, for a proper relative path `r`. -/
theorem FS.lookup_copyEntries (fs : FS) (src dst r : FPath) (hr : r ≠ []) :
    FS.lookup (FS.copyEntries fs src dst) (dst ++ r) = FS.lookup fs (src ++ r) := by
  induction fs with
  | nil => rfl
  | cons e rest ih =>
    simp only [FS.copyEntries, List.filterMap_cons] at ih ⊢
    by_cases hc : pathLe src e.1 = true ∧ e.1 ≠ src
    · have hsplit : src ++ List.drop src.length e.1 = e.1 :=
        pathLe_append_drop src e.1 hc.1
      by_cases he : e.1 = src ++ r
      · have hdrop : List.drop src.length e.1 = r :=
          List.append_cancel_left (hsplit.trans he)
        rw [if_pos hc]
        simp [FS.lookup, hdrop, he]
      · have hne : dst ++ List.drop src.length e.1 ≠ dst ++ r := by
          intro hcontra
          have hdr := List.append_cancel_left hcontra
          rw [hdr] at hsplit
          exact he hsplit.symm
        simp [hc, FS.lookup, hne, fun h : e.1 = src ++ r => he h, he, ih]
    · have he : e.1 ≠ src ++ r := by
        intro hcontra
        refine hc ⟨?_, ?_⟩
        · rw [hcontra]; exact pathLe_append src r
        · rw [hcontra]
          intro habs
          have : r = ([] : FPath) := by
            have h0 : src ++ r = src ++ [] := by simpa using habs
            exact List.append_cancel_left h0
          exact hr this
      simp [hc, FS.lookup, he, ih]

/-- Looking up a file under the copy destination: if the destination
subtree was fresh, the result is the corresponding file of the source
subtree. -/
theorem FS.lookup_copyTree_under (fs : FS) (src dst r : FPath) (hr : r ≠ [])
    (hfresh : FS.lookup fs (dst ++ r) = none) :
    FS.lookup (FS.copyTree fs src dst) (dst ++ r) = FS.lookup fs (src ++ r) := by
  rw [FS.copyTree, FS.lookup_append, FS.lookup_copyEntries fs src dst r hr, hfresh]
  cases FS.lookup fs (src ++ r) <;> rfl

/-- A failing `ioutil.ReadFile` (no read permission) makes V2 `contains`
return `false`. -/
theorem contains_read_error (s : String) (fs : FS) (name : FPath) :
    contains s fs false name = false := by
  unfold contains
  cases FS.lookup fs name with
  | none => rfl
  | some n => cases n <;> rfl

/-- A missing file makes V2 `contains` return `false` whatever the read
permission. -/
theorem contains_missing (s : String) (fs : FS) (r : Bool) (name : FPath)
    (h : FS.lookup fs name = none) :
    contains s fs r name = false := by
  unfold contains
  rw [h]

/-- C10 counterexample: the template directory exists (a leftover from an
earlier process) but contains no `postgresql.conf`; the copied instance
directory therefore has no `postgresql.conf` either, and `Start` fails at
the `os.OpenFile(..., O_APPEND|O_WRONLY, ...)` step with `t.Fatal` —
before `contains` is ever consulted — refuting the claim that a missing
copied `postgresql.conf` leads to the plural key being appended rather
than a failure. -/
theorem pgtest_C10_cex :
    (startV2 ⟨⟨true, "/b", false, true, "x"⟩, true, true, true, true, true, true, true, [true]⟩
        ⟨[(["tmp"], Node.dir), (pgtestdataV2, Node.dir)], 0, false, 0, false, ""⟩).1
      = Except.error Err.confOpenErr := by
  decide

/-- C10 (amended): V2 `contains(substr, name)` returns `false` whenever the
named file cannot be read (a read error is treated as absence of the
substring); consequently, if the copied `postgresql.conf` exists and can be
opened for appending but cannot be read, `Start` appends the plural
`unix_socket_directories` override (the rendered template with
`Plural = true`); a MISSING copy, however, makes `Start` fail at the
`os.OpenFile` step before the substring check is reached. -/
theorem pgtest_C10_thm (s : String) (gs : FS) (nm : FPath)
    (o : StartOracleV2) (w : WorldV2) (c : String)
    (hdone : w.onceDone = true) (hinit : w.initdbOk = true)
    (htmp : o.tempDirOk = true) (hcp : o.cpExtOk = true)
    (hsrc : FS.hasFPath w.fs pgtestdataV2 = true)
    (hconf : FS.lookup w.fs (pgtestdataV2 ++ ["postgresql.conf"]) = some (Node.file c))
    (hfresh : FS.lookup w.fs (tempFPath w.tmpCounter ++ ["postgresql.conf"]) = none)
    (hopen : o.confOpenOk = true) (hread : o.confReadOk = false)
    (hwrite : o.confWriteOk = true) :
    contains s gs false nm = false ∧
    (FS.lookup gs nm = none → ∀ r, contains s gs r nm = false) ∧
    FS.lookup (startV2 o w).2.fs (tempFPath w.tmpCounter ++ ["postgresql.conf"])
      = some (Node.file (c ++ renderConf (fpathStr (tempFPath w.tmpCounter)) true)) := by
  refine ⟨contains_read_error s gs nm, fun h r => contains_missing s gs r nm h, ?_⟩
  have hne_data := tempFPath_ne_pgtestdataV2 w.tmpCounter
  have hdir_ne : tempFPath w.tmpCounter ≠ tempFPath w.tmpCounter ++ ["postgresql.conf"] := by
    intro h
    have := congrArg List.length h
    simp [tempFPath] at this
  have htc_ne : tempFPath w.tmpCounter ≠ pgtestdataV2 ++ ["postgresql.conf"] := by
    intro h
    have := congrArg List.length h
    simp [tempFPath, pgtestdataV2] at this
  have h1 : FS.hasFPath (FS.set w.fs (tempFPath w.tmpCounter) Node.dir) pgtestdataV2
      = true := by
    rw [FS.hasFPath_set_ne _ _ _ _ hne_data]
    exact hsrc
  have h2 : FS.lookup (FS.set w.fs (tempFPath w.tmpCounter) Node.dir)
      (tempFPath w.tmpCounter ++ ["postgresql.conf"]) = none := by
    rw [FS.lookup_set_ne _ _ _ _ hdir_ne]
    exact hfresh
  have h3 : FS.lookup
      (FS.copyTree (FS.set w.fs (tempFPath w.tmpCounter) Node.dir) pgtestdataV2
        (tempFPath w.tmpCounter))
      (tempFPath w.tmpCounter ++ ["postgresql.conf"]) = some (Node.file c) := by
    rw [FS.lookup_copyTree_under _ _ _ _ (by simp) h2]
    rw [FS.lookup_set_ne _ _ _ _ htc_ne]
    exact hconf
  simp only [startV2, onceStepV2, hdone, hinit, if_true, instStepV2, htmp, Bool.not_true,
    Bool.false_eq_true, if_false, h1, hcp, Bool.and_self, h3, hopen, hread,
    contains_read_error, Bool.not_false, hwrite]
  split
  · simp [FS.lookup_set_self]
  · split
    · simp [FS.lookup_set_self]
    · split
      · simp [FS.lookup_set_self]
      · simp [FS.lookup_set_self]

theorem pgtest_C10_wit :
    contains "unix_socket_directory"
        [(pgtestdataV2 ++ ["postgresql.conf"], Node.file "x")] false
        (pgtestdataV2 ++ ["postgresql.conf"]) = false ∧
    FS.lookup
      (startV2 ⟨⟨true, "/b", false, true, "x"⟩, true, true, true, false, true, true, true, [true]⟩
        ⟨[(["tmp"], Node.dir), (pgtestdataV2, Node.dir),
          (pgtestdataV2 ++ ["postgresql.conf"], Node.file "#old conf\n")],
          0, true, 1, true, "/b/postgres"⟩).2.fs
      (tempFPath 0 ++ ["postgresql.conf"])
      = some (Node.file ("#old conf\n" ++ renderConf (fpathStr (tempFPath 0)) true)) :=
  ⟨(pgtest_C10_thm "unix_socket_directory"
      [(pgtestdataV2 ++ ["postgresql.conf"], Node.file "x")]
      (pgtestdataV2 ++ ["postgresql.conf"])
      ⟨⟨true, "/b", false, true, "x"⟩, true, true, true, false, true, true, true, [true]⟩
      ⟨[(["tmp"], Node.dir), (pgtestdataV2, Node.dir),
        (pgtestdataV2 ++ ["postgresql.conf"], Node.file "#old conf\n")],
        0, true, 1, true, "/b/postgres"⟩ "#old conf\n"
      rfl rfl rfl rfl (by decide) (by decide) (by decide) rfl rfl rfl).1,
    (pgtest_C10_thm "unix_socket_directory"
      [(pgtestdataV2 ++ ["postgresql.conf"], Node.file "x")]
      (pgtestdataV2 ++ ["postgresql.conf"])
      ⟨⟨true, "/b", false, true, "x"⟩, true, true, true, false, true, true, true, [true]⟩
      ⟨[(["tmp"], Node.dir), (pgtestdataV2, Node.dir),
        (pgtestdataV2 ++ ["postgresql.conf"], Node.file "#old conf\n")],
        0, true, 1, true, "/b/postgres"⟩ "#old conf\n"
      rfl rfl rfl rfl (by decide) (by decide) (by decide) rfl rfl rfl).2.2⟩

/-! ## Claim C2 -/

/-- The process-wide once-guard invariant: either the guard has not fired
and the body never ran, or it has fired and the body ran at most once. -/
def onceInvV1 (w : WorldV1) : Prop :=
  (w.onceDone = false ∧ w.onceRuns = 0) ∨ (w.onceDone = true ∧ w.onceRuns ≤ 1)

/-- The once-guard invariant for V2. -/
def onceInvV2 (w : WorldV2) : Prop :=
  (w.onceDone = false ∧ w.onceRuns = 0) ∨ (w.onceDone = true ∧ w.onceRuns ≤ 1)

theorem onceStepV1_after (o : InitOracleV1) (w : WorldV1) :
    (onceStepV1 o w).2.onceDone = true ∧
    (onceStepV1 o w).2.onceRuns = (if w.onceDone then w.onceRuns else w.onceRuns + 1) := by
  cases hd : w.onceDone <;> simp [onceStepV1, hd]

theorem onceStepV2_after (o : InitOracleV2) (w : WorldV2) :
    (onceStepV2 o w).2.onceDone = true ∧
    (onceStepV2 o w).2.onceRuns = (if w.onceDone then w.onceRuns else w.onceRuns + 1) := by
  have hfs1 : (maybeInitdbV2 o w).2.onceDone = w.onceDone := by
    dsimp only [maybeInitdbV2]
    repeat' split
    all_goals rfl
  have hfs2 : (maybeInitdbV2 o w).2.onceRuns = w.onceRuns := by
    dsimp only [maybeInitdbV2]
    repeat' split
    all_goals rfl
  cases hd : w.onceDone
  · simp [onceStepV2, hd, hfs2]
  · simp [onceStepV2, hd]

theorem instStepV1_preserves_once (o : StartOracleV1) (w : WorldV1) :
    (instStepV1 o w).2.onceDone = w.onceDone ∧
    (instStepV1 o w).2.onceRuns = w.onceRuns := by
  refine ⟨?_, ?_⟩ <;>
  · dsimp only [instStepV1]
    repeat' split
    all_goals rfl

theorem instStepV2_preserves_once (o : StartOracleV2) (w : WorldV2) :
    (instStepV2 o w).2.onceDone = w.onceDone ∧
    (instStepV2 o w).2.onceRuns = w.onceRuns := by
  refine ⟨?_, ?_⟩ <;>
  · dsimp only [instStepV2]
    repeat' split
    all_goals rfl

theorem startV1_onceInv (o : StartOracleV1) (w : WorldV1) (h : onceInvV1 w) :
    onceInvV1 (startV1 o w).2 := by
  have ha := onceStepV1_after o.init w
  have hruns : (onceStepV1 o.init w).2.onceRuns ≤ 1 := by
    rcases h with ⟨hf, hr⟩ | ⟨ht, hr⟩
    · rw [ha.2, hf, hr]; simp
    · rw [ha.2, ht]; simpa using hr
  unfold startV1
  rcases hcase : onceStepV1 o.init w with ⟨r, w1⟩
  rw [hcase] at ha hruns
  cases r with
  | error e => exact Or.inr ⟨ha.1, hruns⟩
  | ok u =>
    have hp := instStepV1_preserves_once o w1
    exact Or.inr ⟨hp.1.trans ha.1, hp.2 ▸ hruns⟩

theorem startV2_onceInv (o : StartOracleV2) (w : WorldV2) (h : onceInvV2 w) :
    onceInvV2 (startV2 o w).2 := by
  have ha := onceStepV2_after o.init w
  have hruns : (onceStepV2 o.init w).2.onceRuns ≤ 1 := by
    rcases h with ⟨hf, hr⟩ | ⟨ht, hr⟩
    · rw [ha.2, hf, hr]; simp
    · rw [ha.2, ht]; simpa using hr
  unfold startV2
  rcases hcase : onceStepV2 o.init w with ⟨r, w1⟩
  rw [hcase] at ha hruns
  cases r with
  | error e => exact Or.inr ⟨ha.1, hruns⟩
  | ok u =>
    by_cases hi : w1.initdbOk = true
    · have hp := instStepV2_preserves_once o w1
      simp only [hi, Bool.not_true, Bool.false_eq_true, if_false]
      exact Or.inr ⟨hp.1.trans ha.1, hp.2 ▸ hruns⟩
    · simp only [Bool.not_eq_true] at hi
      simp only [hi, Bool.not_false, if_true]
      exact Or.inr ⟨ha.1, hruns⟩

theorem runStartsV1_onceInv (os : List StartOracleV1) (w : WorldV1)
    (h : onceInvV1 w) : onceInvV1 (runStartsV1 w os).1 := by
  induction os generalizing w with
  | nil => exact h
  | cons o os ih =>
    simp only [runStartsV1]
    exact ih _ (startV1_onceInv o w h)

theorem runStartsV2_onceInv (os : List StartOracleV2) (w : WorldV2)
    (h : onceInvV2 w) : onceInvV2 (runStartsV2 w os).1 := by
  induction os generalizing w with
  | nil => exact h
  | cons o os ih =>
    simp only [runStartsV2]
    exact ih _ (startV2_onceInv o w h)

/-- Once the V2 guard has fired with `initdbOk` still false, every further
`Start` immediately fails with the prior-initdb error and changes nothing. -/
theorem startV2_stuck (o : StartOracleV2) (w : WorldV2)
    (hd : w.onceDone = true) (hi : w.initdbOk = false) :
    startV2 o w = (Except.error Err.priorInitdb, w) := by
  simp [startV2, onceStepV2, hd, hi]

theorem runStartsV2_stuck (os : List StartOracleV2) (w : WorldV2)
    (hd : w.onceDone = true) (hi : w.initdbOk = false) :
    (runStartsV2 w os).1 = w ∧
    ∀ r ∈ (runStartsV2 w os).2, r = Except.error Err.priorInitdb := by
  induction os with
  | nil => exact ⟨rfl, by simp [runStartsV2]⟩
  | cons o os ih =>
    simp only [runStartsV2, startV2_stuck o w hd hi]
    refine ⟨ih.1, ?_⟩
    intro r hr
    rcases List.mem_cons.mp hr with h | h
    · exact h
    · exact ih.2 r h

/-- C2 counterexample: in the `src/pgtest.go` variant, from a fresh process
state, a first `Start` whose `initdb` fails reports the fatal error, while
the second `Start` (guard already fired, body skipped) proceeds and
succeeds — the call after the first does NOT observe the same
success-or-failure outcome as the first call. -/
theorem pgtest_C2_cex :
    (runStartsV1 ⟨[(["tmp"], Node.dir)], 0, false, 0⟩
        [⟨⟨false, false, "", true, true, true⟩, true, true, true, [true]⟩,
          ⟨⟨false, true, "", true, true, true⟩, true, true, true, [true]⟩]).2
      = [Except.error Err.initdbErr, Except.ok ⟨tempFPath 0⟩] ∧
    (runStartsV1 ⟨[(["tmp"], Node.dir)], 0, false, 0⟩
        [⟨⟨false, false, "", true, true, true⟩, true, true, true, [true]⟩,
          ⟨⟨false, true, "", true, true, true⟩, true, true, true, [true]⟩]).1.onceRuns
      = 1 := by
  decide

/-- C2 (amended): in both variants the template-initialization body runs at
most once per process — every `Start` after the first skips its side
effects.  In the part_000 variant a failed first initialization is also
observed by every later call (each fails with the prior-initdb error and
the state stays unchanged); in the pgtest.go variant, however, a later
call does not re-observe a first-call failure and may succeed (see the
counterexample). -/
theorem pgtest_C2_thm (os1 : List StartOracleV1) (w1 : WorldV1)
    (os2 : List StartOracleV2) (w2 : WorldV2) (os3 : List StartOracleV2) (w3 : WorldV2)
    (h1d : w1.onceDone = false) (h1r : w1.onceRuns = 0)
    (h2d : w2.onceDone = false) (h2r : w2.onceRuns = 0)
    (h3d : w3.onceDone = true) (h3i : w3.initdbOk = false) :
    (runStartsV1 w1 os1).1.onceRuns ≤ 1 ∧
    (runStartsV2 w2 os2).1.onceRuns ≤ 1 ∧
    ((runStartsV2 w3 os3).1 = w3 ∧
      ∀ r ∈ (runStartsV2 w3 os3).2, r = Except.error Err.priorInitdb) := by
  refine ⟨?_, ?_, runStartsV2_stuck os3 w3 h3d h3i⟩
  · rcases runStartsV1_onceInv os1 w1 (Or.inl ⟨h1d, h1r⟩) with ⟨_, hr⟩ | ⟨_, hr⟩
    · omega
    · exact hr
  · rcases runStartsV2_onceInv os2 w2 (Or.inl ⟨h2d, h2r⟩) with ⟨_, hr⟩ | ⟨_, hr⟩
    · omega
    · exact hr

theorem pgtest_C2_wit :
    (runStartsV1 ⟨[(["tmp"], Node.dir)], 0, false, 0⟩
        [⟨⟨false, true, "", true, true, true⟩, true, true, true, [true]⟩,
          ⟨⟨false, true, "", true, true, true⟩, true, true, true, [true]⟩]).1.onceRuns ≤ 1 ∧
    (runStartsV2 ⟨[(["tmp"], Node.dir)], 0, false, 0, false, ""⟩
        [⟨⟨true, "/b", false, true, "x"⟩, true, true, true, true, true, true, true, [true]⟩]).1.onceRuns ≤ 1 ∧
    ((runStartsV2 ⟨[(["tmp"], Node.dir)], 0, true, 1, false, "/b/postgres"⟩
        [⟨⟨true, "/b", false, true, "x"⟩, true, true, true, true, true, true, true, [true]⟩]).1
      = ⟨[(["tmp"], Node.dir)], 0, true, 1, false, "/b/postgres"⟩ ∧
      ∀ r ∈ (runStartsV2 ⟨[(["tmp"], Node.dir)], 0, true, 1, false, "/b/postgres"⟩
        [⟨⟨true, "/b", false, true, "x"⟩, true, true, true, true, true, true, true, [true]⟩]).2,
        r = Except.error Err.priorInitdb) :=
  pgtest_C2_thm
    [⟨⟨false, true, "", true, true, true⟩, true, true, true, [true]⟩,
      ⟨⟨false, true, "", true, true, true⟩, true, true, true, [true]⟩]
    ⟨[(["tmp"], Node.dir)], 0, false, 0⟩
    [⟨⟨true, "/b", false, true, "x"⟩, true, true, true, true, true, true, true, [true]⟩]
    ⟨[(["tmp"], Node.dir)], 0, false, 0, false, ""⟩
    [⟨⟨true, "/b", false, true, "x"⟩, true, true, true, true, true, true, true, [true]⟩]
    ⟨[(["tmp"], Node.dir)], 0, true, 1, false, "/b/postgres"⟩
    rfl rfl rfl rfl rfl rfl

/-! ## Claim C4 -/

theorem dataMk (l : List Char) : (String.mk l).data = l := rfl

theorem onceStepV1_counter (o : InitOracleV1) (w : WorldV1) :
    (onceStepV1 o w).2.tmpCounter = w.tmpCounter := by
  cases hd : w.onceDone <;> simp [onceStepV1, hd]

theorem maybeInitdbV2_counter (o : InitOracleV2) (w : WorldV2) :
    (maybeInitdbV2 o w).2.tmpCounter = w.tmpCounter := by
  dsimp only [maybeInitdbV2]
  repeat' split
  all_goals rfl

theorem onceStepV2_counter (o : InitOracleV2) (w : WorldV2) :
    (onceStepV2 o w).2.tmpCounter = w.tmpCounter := by
  cases hd : w.onceDone <;> simp [onceStepV2, hd, maybeInitdbV2_counter]

theorem instStepV1_ok_shape (o : StartOracleV1) (w : WorldV1) (pg : PGv1)
    (h : (instStepV1 o w).1 = Except.ok pg) :
    pg.dir = tempFPath w.tmpCounter ∧
    (instStepV1 o w).2.tmpCounter = w.tmpCounter + 1 := by
  dsimp only [instStepV1] at h ⊢
  repeat' split at h
  all_goals simp_all
  subst h
  exact rfl

theorem instStepV2_ok_shape (o : StartOracleV2) (w : WorldV2) (pg : PGv2)
    (h : (instStepV2 o w).1 = Except.ok pg) :
    pg.dir = tempFPath w.tmpCounter ∧
    pg.URL = "host=" ++ fpathStr (tempFPath w.tmpCounter) ++
      " dbname=postgres sslmode=disable" ∧
    (instStepV2 o w).2.tmpCounter = w.tmpCounter + 1 := by
  dsimp only [instStepV2] at h ⊢
  repeat' split at h
  all_goals simp_all
  subst h
  exact ⟨rfl, rfl⟩

theorem startV1_ok_shape (o : StartOracleV1) (w : WorldV1) (pg : PGv1)
    (h : (startV1 o w).1 = Except.ok pg) :
    pg.dir = tempFPath w.tmpCounter ∧
    (startV1 o w).2.tmpCounter = w.tmpCounter + 1 := by
  have hcnt := onceStepV1_counter o.init w
  unfold startV1 at h ⊢
  rcases hcase : onceStepV1 o.init w with ⟨r, w1⟩
  rw [hcase] at h hcnt
  have hcnt2 : w1.tmpCounter = w.tmpCounter := hcnt
  cases r with
  | error e => simp at h
  | ok u =>
    have hshape := instStepV1_ok_shape o w1 pg h
    rw [hcnt2] at hshape
    exact hshape

theorem startV2_ok_shape (o : StartOracleV2) (w : WorldV2) (pg : PGv2)
    (h : (startV2 o w).1 = Except.ok pg) :
    pg.dir = tempFPath w.tmpCounter ∧
    pg.URL = "host=" ++ fpathStr (tempFPath w.tmpCounter) ++
      " dbname=postgres sslmode=disable" ∧
    (startV2 o w).2.tmpCounter = w.tmpCounter + 1 := by
  have hcnt := onceStepV2_counter o.init w
  unfold startV2 at h ⊢
  rcases hcase : onceStepV2 o.init w with ⟨r, w1⟩
  rw [hcase] at h hcnt
  have hcnt2 : w1.tmpCounter = w.tmpCounter := hcnt
  cases r with
  | error e => simp at h
  | ok u =>
    cases hb : w1.initdbOk
    · simp [hb] at h
    · simp [hb] at h ⊢
      have hshape := instStepV2_ok_shape o w1 pg h
      rw [hcnt2] at hshape
      exact hshape

theorem fpathStr_tempFPath_inj (m n : Nat)
    (h : fpathStr (tempFPath m) = fpathStr (tempFPath n)) : m = n := by
  have hd := congrArg (fun s => s.data.length) h
  simp [fpathStr, tempFPath, tempName, String.data_append, dataMk,
    List.length_append] at hd
  omega

theorem urlV2_of_inj (m n : Nat)
    (h : "host=" ++ fpathStr (tempFPath m) ++ " dbname=postgres sslmode=disable"
       = "host=" ++ fpathStr (tempFPath n) ++ " dbname=postgres sslmode=disable") :
    m = n := by
  have hd := congrArg (fun s => s.data.length) h
  simp [fpathStr, tempFPath, tempName, String.data_append, dataMk,
    List.length_append] at hd
  omega

theorem pathLe_same_len_eq (p1 : FPath) :
    ∀ (p2 q : FPath), pathLe p1 q = true → pathLe p2 q = true →
      p1.length = p2.length → p1 = p2 := by
  induction p1 with
  | nil =>
    intro p2 q _ _ hl
    cases p2 with
    | nil => rfl
    | cons b bs => simp at hl
  | cons a as ih =>
    intro p2 q h1 h2 hl
    cases p2 with
    | nil => simp at hl
    | cons b bs =>
      cases q with
      | nil => cases h1
      | cons c cs =>
        simp only [pathLe, Bool.and_eq_true, decide_eq_true_eq] at h1 h2
        simp only [List.length_cons, Nat.add_right_cancel_iff] at hl
        rw [h1.1, ← h2.1, ih bs cs h1.2 h2.2 hl]

/-- Removing one length-matched directory does not change lookups under a
different one. -/
theorem removeAll_other (d1 d2 : FPath) (hne : d1 ≠ d2)
    (hl : d1.length = d2.length) (fs : FS) (q : FPath)
    (hq : pathLe d2 q = true) :
    FS.lookup (FS.removeAll fs d1) q = FS.lookup fs q := by
  have hfalse : pathLe d1 q = false := by
    cases hb : pathLe d1 q
    · rfl
    · exact absurd (pathLe_same_len_eq d1 d2 q hb hq hl) hne
  exact FS.lookup_removeAll_of_not_le fs d1 q hfalse

/-- C4 counterexample: two instances started successfully in the same
process in the `src/pgtest.go` variant get distinct working directories,
but their endpoints — the package-constant connection URL and the fixed
socket path `/tmp/.s.PGSQL.5432` — are identical, refuting the claim that
any two instances have distinct endpoints. -/
theorem pgtest_C4_cex :
    (runStartsV1 ⟨[(["tmp"], Node.dir)], 0, false, 0⟩
        [⟨⟨false, true, "", true, true, true⟩, true, true, true, [true]⟩,
          ⟨⟨false, true, "", true, true, true⟩, true, true, true, [true]⟩]).2
      = [Except.ok ⟨tempFPath 0⟩, Except.ok ⟨tempFPath 1⟩] ∧
    tempFPath 0 ≠ tempFPath 1 ∧
    endpointV1 ⟨tempFPath 0⟩ = endpointV1 ⟨tempFPath 1⟩ ∧
    sockV1 = sockV1 := by
  decide

/-- C4 (amended): two instances provisioned in the same process always
have distinct working directories, and removing either instance's
directory does not affect any path under the other's; in the part_000
variant the endpoints (connection URL, per-instance socket path) are also
distinct, but in the pgtest.go variant both instances expose the same
package-constant endpoint. -/
theorem pgtest_C4_thm (o1 o2 : StartOracleV2) (w : WorldV2) (pg1 pg2 : PGv2)
    (q1 q2 : StartOracleV1) (v : WorldV1) (g1 g2 : PGv1)
    (h1 : (startV2 o1 w).1 = Except.ok pg1)
    (h2 : (startV2 o2 (startV2 o1 w).2).1 = Except.ok pg2)
    (hv1 : (startV1 q1 v).1 = Except.ok g1)
    (hv2 : (startV1 q2 (startV1 q1 v).2).1 = Except.ok g2) :
    pg1.dir ≠ pg2.dir ∧ pg1.URL ≠ pg2.URL ∧ sockV2 pg1.dir ≠ sockV2 pg2.dir ∧
    (∀ fs q, pathLe pg2.dir q = true →
      FS.lookup (FS.removeAll fs pg1.dir) q = FS.lookup fs q) ∧
    (∀ fs q, pathLe pg1.dir q = true →
      FS.lookup (FS.removeAll fs pg2.dir) q = FS.lookup fs q) ∧
    g1.dir ≠ g2.dir ∧ endpointV1 g1 = endpointV1 g2 ∧
    (∀ fs q, pathLe g2.dir q = true →
      FS.lookup (FS.removeAll fs g1.dir) q = FS.lookup fs q) := by
  obtain ⟨hd1, hu1, hc1⟩ := startV2_ok_shape o1 w pg1 h1
  obtain ⟨hd2, hu2, hc2⟩ := startV2_ok_shape o2 (startV2 o1 w).2 pg2 h2
  rw [hc1] at hd2 hu2
  obtain ⟨gd1, gc1⟩ := startV1_ok_shape q1 v g1 hv1
  obtain ⟨gd2, gc2⟩ := startV1_ok_shape q2 (startV1 q1 v).2 g2 hv2
  rw [gc1] at gd2
  have hdirne : pg1.dir ≠ pg2.dir := by
    rw [hd1, hd2]
    intro hcontra
    have := tempFPath_inj _ _ hcontra
    omega
  have hlen : pg1.dir.length = pg2.dir.length := by rw [hd1, hd2]; rfl
  have gdirne : g1.dir ≠ g2.dir := by
    rw [gd1, gd2]
    intro hcontra
    have := tempFPath_inj _ _ hcontra
    omega
  have glen : g1.dir.length = g2.dir.length := by rw [gd1, gd2]; rfl
  refine ⟨hdirne, ?_, ?_, ?_, ?_, gdirne, rfl, ?_⟩
  · rw [hu1, hu2]
    intro hcontra
    have := urlV2_of_inj _ _ hcontra
    omega
  · rw [hd1, hd2]
    intro hcontra
    simp only [sockV2, tempFPath, List.cons_append, List.nil_append,
      List.cons.injEq] at hcontra
    have := tempName_inj _ _ hcontra.2.1
    omega
  · intro fs q hq
    exact removeAll_other pg1.dir pg2.dir hdirne hlen fs q hq
  · intro fs q hq
    exact removeAll_other pg2.dir pg1.dir (fun hcontra => hdirne hcontra.symm)
      hlen.symm fs q hq
  · intro fs q hq
    exact removeAll_other g1.dir g2.dir gdirne glen fs q hq

theorem pgtest_C4_wit :
    (startV2 ⟨⟨true, "/b", false, true, "x"⟩, true, true, true, true, true, true, true, [true]⟩
        ⟨[(["tmp"], Node.dir)], 0, false, 0, false, ""⟩).1
      = Except.ok ⟨"host=/tmp/pgtest0 dbname=postgres sslmode=disable", tempFPath 0⟩ ∧
    (startV2 ⟨⟨true, "/b", false, true, "x"⟩, true, true, true, true, true, true, true, [true]⟩
        (startV2 ⟨⟨true, "/b", false, true, "x"⟩, true, true, true, true, true, true, true, [true]⟩
          ⟨[(["tmp"], Node.dir)], 0, false, 0, false, ""⟩).2).1
      = Except.ok ⟨"host=/tmp/pgtest00 dbname=postgres sslmode=disable", tempFPath 1⟩ ∧
    (⟨"host=/tmp/pgtest0 dbname=postgres sslmode=disable", tempFPath 0⟩ : PGv2).dir
      ≠ (⟨"host=/tmp/pgtest00 dbname=postgres sslmode=disable", tempFPath 1⟩ : PGv2).dir ∧
    (⟨"host=/tmp/pgtest0 dbname=postgres sslmode=disable", tempFPath 0⟩ : PGv2).URL
      ≠ (⟨"host=/tmp/pgtest00 dbname=postgres sslmode=disable", tempFPath 1⟩ : PGv2).URL ∧
    endpointV1 ⟨tempFPath 0⟩ = endpointV1 ⟨tempFPath 1⟩ :=
  ⟨by decide, by decide,
    (pgtest_C4_thm
      ⟨⟨true, "/b", false, true, "x"⟩, true, true, true, true, true, true, true, [true]⟩
      ⟨⟨true, "/b", false, true, "x"⟩, true, true, true, true, true, true, true, [true]⟩
      ⟨[(["tmp"], Node.dir)], 0, false, 0, false, ""⟩
      ⟨"host=/tmp/pgtest0 dbname=postgres sslmode=disable", tempFPath 0⟩
      ⟨"host=/tmp/pgtest00 dbname=postgres sslmode=disable", tempFPath 1⟩
      ⟨⟨false, true, "", true, true, true⟩, true, true, true, [true]⟩
      ⟨⟨false, true, "", true, true, true⟩, true, true, true, [true]⟩
      ⟨[(["tmp"], Node.dir)], 0, false, 0⟩ ⟨tempFPath 0⟩ ⟨tempFPath 1⟩
      (by decide) (by decide) (by decide) (by decide)).1,
    (pgtest_C4_thm
      ⟨⟨true, "/b", false, true, "x"⟩, true, true, true, true, true, true, true, [true]⟩
      ⟨⟨true, "/b", false, true, "x"⟩, true, true, true, true, true, true, true, [true]⟩
      ⟨[(["tmp"], Node.dir)], 0, false, 0, false, ""⟩
      ⟨"host=/tmp/pgtest0 dbname=postgres sslmode=disable", tempFPath 0⟩
      ⟨"host=/tmp/pgtest00 dbname=postgres sslmode=disable", tempFPath 1⟩
      ⟨⟨false, true, "", true, true, true⟩, true, true, true, [true]⟩
      ⟨⟨false, true, "", true, true, true⟩, true, true, true, [true]⟩
      ⟨[(["tmp"], Node.dir)], 0, false, 0⟩ ⟨tempFPath 0⟩ ⟨tempFPath 1⟩
      (by decide) (by decide) (by decide) (by decide)).2.1,
    (pgtest_C4_thm
      ⟨⟨true, "/b", false, true, "x"⟩, true, true, true, true, true, true, true, [true]⟩
      ⟨⟨true, "/b", false, true, "x"⟩, true, true, true, true, true, true, true, [true]⟩
      ⟨[(["tmp"], Node.dir)], 0, false, 0, false, ""⟩
      ⟨"host=/tmp/pgtest0 dbname=postgres sslmode=disable", tempFPath 0⟩
      ⟨"host=/tmp/pgtest00 dbname=postgres sslmode=disable", tempFPath 1⟩
      ⟨⟨false, true, "", true, true, true⟩, true, true, true, [true]⟩
      ⟨⟨false, true, "", true, true, true⟩, true, true, true, [true]⟩
      ⟨[(["tmp"], Node.dir)], 0, false, 0⟩ ⟨tempFPath 0⟩ ⟨tempFPath 1⟩
      (by decide) (by decide) (by decide) (by decide)).2.2.2.2.2.2.1⟩

/-! ## Claim C8 -/

theorem pathLe_tempFPath_false (n : Nat) (t q : FPath) (hq : pathLe t q = true)
    (hlen : t.length = 2) (hne : tempFPath n ≠ t) :
    pathLe (tempFPath n) q = false := by
  cases hb : pathLe (tempFPath n) q
  · rfl
  · exact absurd (pathLe_same_len_eq (tempFPath n) t q hb hq (by rw [hlen]; rfl)) hne

/-- C8: after the template directory is initialized, none of the
per-instance operations — allocating the instance directory, copying the
template into it, appending the instance configuration, launching and
polling (both variants), and `Stop`'s recursive removal of an instance
directory — changes any path at or below the template directory; the
configuration override is applied only to the instance's copy. -/
theorem pgtest_C8_thm (o : StartOracleV2) (w : WorldV2) (q : FPath)
    (hq : pathLe pgtestdataV2 q = true)
    (o1 : StartOracleV1) (w1 : WorldV1) (q1 : FPath)
    (hq1 : pathLe pgtestdataV1 q1 = true)
    (so : StopOracle) (fs : FS) (n : Nat) (qs : FPath)
    (hqs : pathLe pgtestdataV2 qs = true) :
    FS.lookup (instStepV2 o w).2.fs q = FS.lookup w.fs q ∧
    FS.lookup (instStepV1 o1 w1).2.fs q1 = FS.lookup w1.fs q1 ∧
    FS.lookup (stopRun so fs (tempFPath n)).2.1 qs = FS.lookup fs qs := by
  refine ⟨?_, ?_, ?_⟩
  · have hnle : pathLe (tempFPath w.tmpCounter) q = false :=
      pathLe_tempFPath_false w.tmpCounter pgtestdataV2 q hq rfl
        (tempFPath_ne_pgtestdataV2 w.tmpCounter)
    have hne1 : tempFPath w.tmpCounter ≠ q := by
      intro hcontra
      rw [hcontra] at hnle
      rw [pathLe_refl q] at hnle
      cases hnle
    have hne2 : tempFPath w.tmpCounter ++ ["postgresql.conf"] ≠ q := by
      intro hcontra
      have hp := pathLe_append (tempFPath w.tmpCounter) ["postgresql.conf"]
      rw [hcontra] at hp
      rw [hp] at hnle
      cases hnle
    have k1 : FS.lookup (FS.set w.fs (tempFPath w.tmpCounter) Node.dir) q
        = FS.lookup w.fs q := FS.lookup_set_ne _ _ _ _ hne1
    have k2 : FS.lookup
        (FS.copyTree (FS.set w.fs (tempFPath w.tmpCounter) Node.dir) pgtestdataV2
          (tempFPath w.tmpCounter)) q = FS.lookup w.fs q := by
      rw [FS.lookup_copyTree_of_not_le _ _ _ _ hnle]
      exact k1
    have k3 : ∀ nd : Node, FS.lookup
        (FS.set (FS.copyTree (FS.set w.fs (tempFPath w.tmpCounter) Node.dir) pgtestdataV2
          (tempFPath w.tmpCounter)) (tempFPath w.tmpCounter ++ ["postgresql.conf"]) nd) q
        = FS.lookup w.fs q := by
      intro nd
      rw [FS.lookup_set_ne _ _ _ _ hne2]
      exact k2
    dsimp only [instStepV2]
    repeat' split
    all_goals first | rfl | exact k1 | exact k2 | exact k3 _
  · have hnle : pathLe (tempFPath w1.tmpCounter) q1 = false :=
      pathLe_tempFPath_false w1.tmpCounter pgtestdataV1 q1 hq1 rfl
        (tempFPath_ne_pgtestdataV1 w1.tmpCounter)
    have hne1 : tempFPath w1.tmpCounter ≠ q1 := by
      intro hcontra
      rw [hcontra] at hnle
      rw [pathLe_refl q1] at hnle
      cases hnle
    have k1 : FS.lookup (FS.set w1.fs (tempFPath w1.tmpCounter) Node.dir) q1
        = FS.lookup w1.fs q1 := FS.lookup_set_ne _ _ _ _ hne1
    have k2 : FS.lookup
        (FS.copyTree (FS.set w1.fs (tempFPath w1.tmpCounter) Node.dir) pgtestdataV1
          (tempFPath w1.tmpCounter)) q1 = FS.lookup w1.fs q1 := by
      rw [FS.lookup_copyTree_of_not_le _ _ _ _ hnle]
      exact k1
    dsimp only [instStepV1]
    repeat' split
    all_goals first | rfl | exact k1 | exact k2
  · have hnle : pathLe (tempFPath n) qs = false :=
      pathLe_tempFPath_false n pgtestdataV2 qs hqs rfl (tempFPath_ne_pgtestdataV2 n)
    dsimp only [stopRun]
    repeat' split
    all_goals first | rfl | exact FS.lookup_removeAll_of_not_le fs (tempFPath n) qs hnle

theorem pgtest_C8_wit :
    pathLe pgtestdataV2 (pgtestdataV2 ++ ["postgresql.conf"]) = true ∧
    FS.lookup
      (instStepV2 ⟨⟨true, "/b", false, true, "x"⟩, true, true, true, true, true, true, true, [true]⟩
        ⟨[(["tmp"], Node.dir), (pgtestdataV2, Node.dir),
          (pgtestdataV2 ++ ["postgresql.conf"], Node.file "#c\n")], 0, true, 1, true, "/b/postgres"⟩).2.fs
      (pgtestdataV2 ++ ["postgresql.conf"])
      = FS.lookup
        ([(["tmp"], Node.dir), (pgtestdataV2, Node.dir),
          (pgtestdataV2 ++ ["postgresql.conf"], Node.file "#c\n")] : FS)
        (pgtestdataV2 ++ ["postgresql.conf"]) ∧
    FS.lookup
      (stopRun ⟨true, true⟩
        [(pgtestdataV2, Node.dir), (tempFPath 3, Node.dir)] (tempFPath 3)).2.1
      pgtestdataV2
      = FS.lookup ([(pgtestdataV2, Node.dir), (tempFPath 3, Node.dir)] : FS) pgtestdataV2 :=
  ⟨by decide,
    (pgtest_C8_thm
      ⟨⟨true, "/b", false, true, "x"⟩, true, true, true, true, true, true, true, [true]⟩
      ⟨[(["tmp"], Node.dir), (pgtestdataV2, Node.dir),
        (pgtestdataV2 ++ ["postgresql.conf"], Node.file "#c\n")], 0, true, 1, true, "/b/postgres"⟩
      (pgtestdataV2 ++ ["postgresql.conf"]) (by decide)
      ⟨⟨false, true, "", true, true, true⟩, true, true, true, [true]⟩
      ⟨[(["tmp"], Node.dir)], 0, true, 1⟩ pgtestdataV1 (by decide)
      ⟨true, true⟩ [(pgtestdataV2, Node.dir), (tempFPath 3, Node.dir)] 3 pgtestdataV2
      (by decide)).1,
    (pgtest_C8_thm
      ⟨⟨true, "/b", false, true, "x"⟩, true, true, true, true, true, true, true, [true]⟩
      ⟨[(["tmp"], Node.dir), (pgtestdataV2, Node.dir),
        (pgtestdataV2 ++ ["postgresql.conf"], Node.file "#c\n")], 0, true, 1, true, "/b/postgres"⟩
      (pgtestdataV2 ++ ["postgresql.conf"]) (by decide)
      ⟨⟨false, true, "", true, true, true⟩, true, true, true, [true]⟩
      ⟨[(["tmp"], Node.dir)], 0, true, 1⟩ pgtestdataV1 (by decide)
      ⟨true, true⟩ [(pgtestdataV2, Node.dir), (tempFPath 3, Node.dir)] 3 pgtestdataV2
      (by decide)).2.2⟩
